import Mathlib

/-!
Verification of `synthetic_data_kit/utils/config.py`.

The module is a configuration loader/accessor over a YAML document.  We embed
the parsed document as a tree of scalars, sequences and string-keyed mappings
(`Value`), mappings being insertion-ordered association lists with the key
update/insert discipline of Python dicts (`lookupKey`, `setKey`).  Each Python
function of the module is translated to a Lean function of the same name.
Python errors relevant to the spec are modelled by the error taxonomy of the
design document (`Err`): `NotFoundError`, `InvalidArgument`, `ParseError`, and
a catch-all `typeError` for the `TypeError`/`AttributeError` failures Python
raises when a section that must be a mapping is not one.
-/

/-- A parsed YAML document node: scalars (null, bool, int, float, string),
sequences, and string-keyed mappings.  Python floats are carried as rationals
(`config.py` only stores and returns them; it never computes with them). -/
inductive Value : Type where
  | vnull : Value
  | vbool : Bool → Value
  | vint : Int → Value
  | vfloat : ℚ → Value
  | vstr : String → Value
  | vlist : List Value → Value
  | vdict : List (String × Value) → Value

/-- A configuration document: the top-level mapping (Python `Dict[str, Any]`). -/
abbrev Config := List (String × Value)

/-- Python `d[k]` / `k in d` lookup on a mapping: first entry with key `k`. -/
def lookupKey {α : Type _} : List (String × α) → String → Option α
  | [], _ => none
  | (k', v) :: rest, k => if k' = k then some v else lookupKey rest k

/-- Python `d[k] = v`: replace the value at an existing key in place
(keeping its position), or append a new entry at the end. -/
def setKey {α : Type _} : List (String × α) → String → α → List (String × α)
  | [], k, v => [(k, v)]
  | (k', v') :: rest, k, v =>
    if k' = k then (k, v) :: rest else (k', v') :: setKey rest k v

theorem lookupKey_setKey {α : Type _} (d : List (String × α)) (k : String) (v : α)
    (k' : String) :
    lookupKey (setKey d k v) k' = if k = k' then some v else lookupKey d k' := by
  induction d with
  | nil =>
    by_cases h : k = k' <;> simp [setKey, lookupKey, h]
  | cons e rest ih =>
    obtain ⟨k₀, v₀⟩ := e
    by_cases h0 : k₀ = k <;> by_cases h : k = k' <;>
      simp_all [setKey, lookupKey]

/-- Error taxonomy of the design document.  `notFound` models Python
`FileNotFoundError` and the `ValueError` raised for a missing prompt,
`invalidArgument` the `ValueError` for an unknown path type, `parseError` a
YAML parse failure, and `typeError` the `TypeError`/`AttributeError` failures
Python raises when a section that must be a mapping is not one. -/
inductive Err : Type where
  | notFound : Err
  | invalidArgument : Err
  | parseError : Err
  | typeError : Err
  deriving DecidableEq

/-- Python `x == 'api-endpoint'`: values of any other runtime type compare
unequal to a string, without error. -/
def isApiEndpoint : Value → Bool
  | .vstr s => s == "api-endpoint"
  | _ => false

/-- Embedding of `get_path_config` (config.py lines 53-76).  `file_type=None`
is `none`; Python's truthiness test `if file_type` is `ft != ""` on `some ft`.
A non-mapping `paths` (or `paths.output`) value makes Python fail with
`AttributeError`/`TypeError` when its `.get`/indexing runs; those failures are
modelled as `Err.typeError`. -/
def get_path_config (config : Config) (path_type : String)
    (file_type : Option String) : Except Err Value :=
  let paths := (lookupKey config "paths").getD (.vdict [])
  if path_type = "input" then
    match paths with
    | .vdict pd =>
      let input_config := (lookupKey pd "input").getD (.vstr "data/input")
      match input_config with
      | .vstr s => .ok (.vstr s)
      | .vdict d =>
        match file_type with
        | some ft =>
          if ft != "" then
            match lookupKey d ft with
            | some v => .ok v
            | none => .ok ((lookupKey d "default").getD (.vstr "data/input"))
          else .ok ((lookupKey d "default").getD (.vstr "data/input"))
        | none => .ok ((lookupKey d "default").getD (.vstr "data/input"))
      | _ => .ok (.vstr "data/input")
    | _ => .error .typeError
  else if path_type = "output" then
    match paths with
    | .vdict pd =>
      let output_paths := (lookupKey pd "output").getD (.vdict [])
      match output_paths with
      | .vdict d =>
        match file_type with
        | some ft =>
          if ft != "" then
            match lookupKey d ft with
            | some v => .ok v
            | none => .ok ((lookupKey d "default").getD (.vstr "data/output"))
          else .ok ((lookupKey d "default").getD (.vstr "data/output"))
        | none => .ok ((lookupKey d "default").getD (.vstr "data/output"))
      | _ => .error .typeError
    | _ => .error .typeError
  else .error .invalidArgument

/-- Embedding of `get_llm_provider` (lines 78-89), return value only.  A
non-mapping `llm` value fails on `llm_config.get` (`AttributeError`),
modelled as `Err.typeError`. -/
def get_llm_provider (config : Config) : Except Err Value :=
  match (lookupKey config "llm").getD (.vdict []) with
  | .vdict llm_config => .ok ((lookupKey llm_config "provider").getD (.vstr "vllm"))
  | _ => .error .typeError

/-- The condition of the warning branch at line 87 of `get_llm_provider`:
`provider != 'api-endpoint' and 'llm' in config and 'provider' in
config['llm'] and config['llm']['provider'] == 'api-endpoint'`, evaluated
with `provider` already bound by lines 84-85.  It is `true` exactly when the
running Python function would print the warning; when `llm` is a non-mapping
value Python raises at line 85 before reaching the check, so the warning is
not printed and the condition is `false`. -/
def llmWarnCond (config : Config) : Bool :=
  match (lookupKey config "llm").getD (.vdict []) with
  | .vdict llm_config =>
    let provider := (lookupKey llm_config "provider").getD (.vstr "vllm")
    (!(isApiEndpoint provider)) &&
      (lookupKey config "llm").isSome &&
      (match (lookupKey config "llm").getD (.vdict []) with
       | .vdict d => (lookupKey d "provider").isSome &&
           isApiEndpoint ((lookupKey d "provider").getD .vnull)
       | _ => false)
  | _ => false

/-- Embedding of `get_vllm_config` (lines 91-99): `config.get('vllm', {...literal
defaults...})`. -/
def get_vllm_config (config : Config) : Value :=
  (lookupKey config "vllm").getD (.vdict [
    ("api_base", .vstr "http://localhost:8000/v1"),
    ("port", .vint 8000),
    ("model", .vstr "meta-llama/Llama-3.3-70B-Instruct"),
    ("max_retries", .vint 3),
    ("retry_delay", .vfloat 1)])

/-- Embedding of `get_openai_config` (lines 101-109). -/
def get_openai_config (config : Config) : Value :=
  (lookupKey config "api-endpoint").getD (.vdict [
    ("api_base", .vnull),
    ("api_key", .vnull),
    ("model", .vstr "gpt-4o"),
    ("max_retries", .vint 3),
    ("retry_delay", .vfloat 1)])

/-- Embedding of `get_generation_config` (lines 111-119). -/
def get_generation_config (config : Config) : Value :=
  (lookupKey config "generation").getD (.vdict [
    ("temperature", .vfloat (7/10)),
    ("top_p", .vfloat (19/20)),
    ("chunk_size", .vint 4000),
    ("overlap", .vint 200),
    ("max_tokens", .vint 4096)])

/-- Embedding of `get_curate_config` (lines 121-127). -/
def get_curate_config (config : Config) : Value :=
  (lookupKey config "curate").getD (.vdict [
    ("threshold", .vfloat 7),
    ("batch_size", .vint 8),
    ("temperature", .vfloat (1/10))])

/-- Embedding of `get_format_config` (lines 129-135). -/
def get_format_config (config : Config) : Value :=
  (lookupKey config "format").getD (.vdict [
    ("default", .vstr "jsonl"),
    ("include_metadata", .vbool true),
    ("pretty_json", .vbool true)])

/-- Embedding of `get_prompt` (lines 137-142).  The `ValueError` raised for a
missing prompt is the design document's `NotFoundError`.  A non-mapping
`prompts` value puts Python's `in`/indexing outside the document model
(substring test or `TypeError`), modelled as `Err.typeError`. -/
def get_prompt (config : Config) (prompt_name : String) : Except Err Value :=
  match (lookupKey config "prompts").getD (.vdict []) with
  | .vdict prompts =>
    match lookupKey prompts prompt_name with
    | none => .error .notFound
    | some v => .ok v
  | _ => .error .typeError

/-- Embedding of `merge_configs` (lines 144-152) on document values.  The
first argument plays `result` (initialised to `base_config.copy()`, which for
the value-level result is `base_config` itself); the second is the iteration
over `override_config.items()`.  Each step mirrors the loop body: when the
override value and the current result value at `key` are both mappings, the
result at `key` becomes their recursive merge, otherwise `result[key] =
value`. -/
def merge_configs : Config → Config → Config
  | base_config, [] => base_config
  | base_config, (key, Value.vdict vd) :: rest =>
    (match lookupKey base_config key with
     | some (Value.vdict rd) =>
       merge_configs (setKey base_config key (Value.vdict (merge_configs rd vd))) rest
     | _ => merge_configs (setKey base_config key (Value.vdict vd)) rest)
  | base_config, (key, value) :: rest =>
    merge_configs (setKey base_config key value) rest

/-- One loop iteration's new value for `result[key]` in `merge_configs`
(lines 148-151): the recursive merge when the override value and the current
result value are both mappings, the override value wholesale otherwise. -/
def mergeStep (value : Value) (cur : Option Value) : Value :=
  match value, cur with
  | .vdict vd, some (.vdict rd) => .vdict (merge_configs rd vd)
  | _, _ => value

theorem merge_configs_nil (b : Config) : merge_configs b [] = b := by
  simp [merge_configs]

theorem merge_configs_cons (b : Config) (key : String) (value : Value)
    (rest : Config) :
    merge_configs b ((key, value) :: rest) =
      merge_configs (setKey b key (mergeStep value (lookupKey b key))) rest := by
  cases value <;> simp [merge_configs, mergeStep]
  cases hr : lookupKey b key with
  | none => simp
  | some rv => cases rv <;> simp

/-- Abstraction of the environment `load_config` reads: which paths exist
(`os.path.exists`), and the parsed document the YAML file at a path holds
(`yaml.safe_load` of its contents; parsing itself is external to this
module). -/
structure FileSystem where
  pathExists : String → Bool
  parsedDocAt : String → Config

/-- Embedding of `load_config` (lines 26-51).  `packagePath` and
`originalPath` stand for the module-level constants `PACKAGE_CONFIG_PATH` and
`ORIGINAL_CONFIG_PATH` (absolute paths computed from the module's location);
`DEFAULT_CONFIG_PATH` equals `PACKAGE_CONFIG_PATH` (line 24).  The `for`/`else`
at lines 30-36 tries the two candidates in order and falls back to the
default; line 38 raises `FileNotFoundError` when the resolved path does not
exist; otherwise the file is parsed and the document returned. -/
def load_config (fs : FileSystem) (packagePath originalPath : String)
    (config_path : Option String) : Except Err Config :=
  let resolved : String :=
    match config_path with
    | some p => p
    | none =>
      if fs.pathExists packagePath then packagePath
      else if fs.pathExists originalPath then originalPath
      else packagePath
  if fs.pathExists resolved then .ok (fs.parsedDocAt resolved)
  else .error .notFound

theorem lookupKey_eq_none_of_not_mem {α : Type _} (d : List (String × α))
    (k : String) (h : k ∉ d.map Prod.fst) : lookupKey d k = none := by
  induction d with
  | nil => rfl
  | cons e rest ih =>
    obtain ⟨k₀, v₀⟩ := e
    simp only [List.map_cons, List.mem_cons] at h
    push_neg at h
    rw [lookupKey, if_neg (fun hh => h.1 hh.symm)]
    exact ih h.2

theorem merge_configs_lookup_aux (override : Config) :
    ∀ result : Config, (override.map Prod.fst).Nodup → ∀ k : String,
      lookupKey (merge_configs result override) k =
        match lookupKey override k, lookupKey result k with
        | some (.vdict od), some (.vdict rd) => some (.vdict (merge_configs rd od))
        | some v, _ => some v
        | none, bv => bv := by
  induction override with
  | nil =>
    intro result _ k
    rw [merge_configs_nil]
    rfl
  | cons e rest ih =>
    obtain ⟨k₀, v₀⟩ := e
    intro result hnd k
    rw [List.map_cons] at hnd
    obtain ⟨hk₀mem, hnd'⟩ := List.nodup_cons.mp hnd
    have hrest : lookupKey rest k₀ = none :=
      lookupKey_eq_none_of_not_mem rest k₀ hk₀mem
    rw [merge_configs_cons, ih _ hnd' k, lookupKey_setKey]
    by_cases hk : k₀ = k
    · subst hk
      rw [if_pos rfl, hrest,
        show lookupKey ((k₀, v₀) :: rest) k₀ = some v₀ from by
          rw [lookupKey, if_pos rfl]]
      cases hr : lookupKey result k₀ with
      | none => cases v₀ <;> rfl
      | some rv => cases rv <;> cases v₀ <;> rfl
    · rw [if_neg hk,
        show lookupKey ((k₀, v₀) :: rest) k = lookupKey rest k from by
          rw [lookupKey, if_neg hk]]

/-- C1: `merge_configs base override` equals `base` with every key of
`override` applied: at each key `k`, when both sides hold mappings the result
holds their recursive merge, when `override` holds `k` otherwise the result
holds `override`'s value wholesale, and keys of `base` absent from `override`
keep their `base` value.  Quantified over documents with the unique keys
Python dicts guarantee. -/
theorem merge_configs_spec (base override : Config)
    (hnd : (override.map Prod.fst).Nodup) (k : String) :
    lookupKey (merge_configs base override) k =
      match lookupKey override k, lookupKey base k with
      | some (.vdict od), some (.vdict bd) => some (.vdict (merge_configs bd od))
      | some v, _ => some v
      | none, bv => bv :=
  merge_configs_lookup_aux override base hnd k

/-- Witness for C1 at the spec's example:
`merge({'a':{'x':1,'y':2}}, {'a':{'y':9,'z':3}})` holds `{'x':1,'y':9,'z':3}`
at key `'a'`. -/
theorem merge_configs_spec_witness :
    lookupKey (merge_configs [("a", .vdict [("x", .vint 1), ("y", .vint 2)])]
        [("a", .vdict [("y", .vint 9), ("z", .vint 3)])]) "a" =
      some (.vdict [("x", .vint 1), ("y", .vint 9), ("z", .vint 3)]) := by
  have h := merge_configs_spec [("a", .vdict [("x", .vint 1), ("y", .vint 2)])]
    [("a", .vdict [("y", .vint 9), ("z", .vint 3)])] (by simp) "a"
  rw [h]
  simp [lookupKey, merge_configs_cons, merge_configs_nil, mergeStep, setKey]

/-- C3: on a document whose `paths` section is a mapping (absent meaning `{}`),
`get_path_config config 'input' file_type` returns a string-valued
`paths.input` verbatim for every `file_type` (including none); when
`paths.input` is a mapping it returns the entry keyed by a given (truthy,
i.e. non-empty) `file_type` when present, and otherwise the entry keyed
`'default'` when present, else the literal `'data/input'`. -/
theorem get_path_config_input_spec (config : Config)
    (pd : List (String × Value))
    (hpaths : (lookupKey config "paths").getD (.vdict []) = .vdict pd)
    (file_type : Option String) :
    (∀ s, lookupKey pd "input" = some (.vstr s) →
      get_path_config config "input" file_type = .ok (.vstr s)) ∧
    (∀ d ft v, lookupKey pd "input" = some (.vdict d) → file_type = some ft →
      ft ≠ "" → lookupKey d ft = some v →
      get_path_config config "input" file_type = .ok v) ∧
    (∀ d, lookupKey pd "input" = some (.vdict d) →
      (∀ ft, file_type = some ft → ft = "" ∨ lookupKey d ft = none) →
      get_path_config config "input" file_type =
        .ok ((lookupKey d "default").getD (.vstr "data/input"))) := by
  refine ⟨?_, ?_, ?_⟩
  · intro s hs
    simp [get_path_config, hpaths, hs]
  · intro d ft v hd hft hne hv
    subst hft
    have hb : (ft != "") = true := by simpa [bne_iff_ne] using hne
    simp [get_path_config, hpaths, hd, hb, hv]
  · intro d hd hdef
    cases file_type with
    | none => simp [get_path_config, hpaths, hd]
    | some ft =>
      by_cases he : ft = ""
      · subst he
        simp [get_path_config, hpaths, hd]
      · have hb : (ft != "") = true := by simpa [bne_iff_ne] using he
        rcases hdef ft rfl with he' | hn
        · exact absurd he' he
        · simp [get_path_config, hpaths, hd, hb, hn]

/-- Witness for C3 at the spec's examples: with `paths.input` the mapping
`{pdf: /a, default: /b}`, requesting `pdf` returns `/a` and requesting `docx`
falls back to `/b`. -/
theorem get_path_config_input_spec_witness :
    get_path_config [("paths", .vdict [("input", .vdict
        [("pdf", .vstr "/a"), ("default", .vstr "/b")])])] "input"
      (some "pdf") = .ok (.vstr "/a") ∧
    get_path_config [("paths", .vdict [("input", .vdict
        [("pdf", .vstr "/a"), ("default", .vstr "/b")])])] "input"
      (some "docx") = .ok (.vstr "/b") := by
  constructor
  · exact (get_path_config_input_spec
      [("paths", .vdict [("input", .vdict
        [("pdf", .vstr "/a"), ("default", .vstr "/b")])])]
      [("input", .vdict [("pdf", .vstr "/a"), ("default", .vstr "/b")])]
      (by rfl) (some "pdf")).2.1
      [("pdf", .vstr "/a"), ("default", .vstr "/b")] "pdf" (.vstr "/a")
      rfl rfl (by decide) rfl
  · exact (get_path_config_input_spec
      [("paths", .vdict [("input", .vdict
        [("pdf", .vstr "/a"), ("default", .vstr "/b")])])]
      [("input", .vdict [("pdf", .vstr "/a"), ("default", .vstr "/b")])]
      (by rfl) (some "docx")).2.2
      [("pdf", .vstr "/a"), ("default", .vstr "/b")] rfl
      (fun ft hft => Or.inr (by cases hft; rfl))

/-- C4: on a document whose `paths` section is a mapping and whose
`paths.output` entry is a mapping (absent meaning `{}`), `get_path_config
config 'output' file_type` returns the entry keyed by a given (truthy, i.e.
non-empty) `file_type` when present, and otherwise the entry keyed
`'default'` when present, else the literal `'data/output'`. -/
theorem get_path_config_output_spec (config : Config)
    (pd d : List (String × Value))
    (hpaths : (lookupKey config "paths").getD (.vdict []) = .vdict pd)
    (hout : (lookupKey pd "output").getD (.vdict []) = .vdict d)
    (file_type : Option String) :
    (∀ ft v, file_type = some ft → ft ≠ "" → lookupKey d ft = some v →
      get_path_config config "output" file_type = .ok v) ∧
    ((∀ ft, file_type = some ft → ft = "" ∨ lookupKey d ft = none) →
      get_path_config config "output" file_type =
        .ok ((lookupKey d "default").getD (.vstr "data/output"))) := by
  constructor
  · intro ft v hft hne hv
    subst hft
    have hb : (ft != "") = true := by simpa [bne_iff_ne] using hne
    simp [get_path_config, hpaths, hout, hb, hv]
  · intro hdef
    cases file_type with
    | none => simp [get_path_config, hpaths, hout]
    | some ft =>
      by_cases he : ft = ""
      · subst he
        simp [get_path_config, hpaths, hout]
      · have hb : (ft != "") = true := by simpa [bne_iff_ne] using he
        rcases hdef ft rfl with he' | hn
        · exact absurd he' he
        · simp [get_path_config, hpaths, hout, hb, hn]

/-- Witness for C4: with `paths.output` the mapping `{json: /j, default: /d}`,
requesting `json` returns `/j` and requesting an absent `bogus` falls back to
`/d`. -/
theorem get_path_config_output_spec_witness :
    get_path_config [("paths", .vdict [("output", .vdict
        [("json", .vstr "/j"), ("default", .vstr "/d")])])] "output"
      (some "json") = .ok (.vstr "/j") ∧
    get_path_config [("paths", .vdict [("output", .vdict
        [("json", .vstr "/j"), ("default", .vstr "/d")])])] "output"
      (some "bogus") = .ok (.vstr "/d") := by
  constructor
  · exact (get_path_config_output_spec
      [("paths", .vdict [("output", .vdict
        [("json", .vstr "/j"), ("default", .vstr "/d")])])]
      [("output", .vdict [("json", .vstr "/j"), ("default", .vstr "/d")])]
      [("json", .vstr "/j"), ("default", .vstr "/d")]
      (by rfl) (by rfl) (some "json")).1
      "json" (.vstr "/j") rfl (by decide) rfl
  · exact (get_path_config_output_spec
      [("paths", .vdict [("output", .vdict
        [("json", .vstr "/j"), ("default", .vstr "/d")])])]
      [("output", .vdict [("json", .vstr "/j"), ("default", .vstr "/d")])]
      [("json", .vstr "/j"), ("default", .vstr "/d")]
      (by rfl) (by rfl) (some "bogus")).2
      (fun ft hft => Or.inr (by cases hft; rfl))

/-- C5: every section getter (`vllm`, `api-endpoint`, `generation`, `curate`,
`format`) returns the stored top-level value verbatim when the key is present
(no partial merge with defaults), and exactly the documented literal default
mapping when the key is absent. -/
theorem section_getters_spec :
    (∀ config : Config, get_vllm_config config =
      match lookupKey config "vllm" with
      | some v => v
      | none => .vdict [("api_base", .vstr "http://localhost:8000/v1"),
          ("port", .vint 8000),
          ("model", .vstr "meta-llama/Llama-3.3-70B-Instruct"),
          ("max_retries", .vint 3), ("retry_delay", .vfloat 1)]) ∧
    (∀ config : Config, get_openai_config config =
      match lookupKey config "api-endpoint" with
      | some v => v
      | none => .vdict [("api_base", .vnull), ("api_key", .vnull),
          ("model", .vstr "gpt-4o"), ("max_retries", .vint 3),
          ("retry_delay", .vfloat 1)]) ∧
    (∀ config : Config, get_generation_config config =
      match lookupKey config "generation" with
      | some v => v
      | none => .vdict [("temperature", .vfloat (7/10)),
          ("top_p", .vfloat (19/20)), ("chunk_size", .vint 4000),
          ("overlap", .vint 200), ("max_tokens", .vint 4096)]) ∧
    (∀ config : Config, get_curate_config config =
      match lookupKey config "curate" with
      | some v => v
      | none => .vdict [("threshold", .vfloat 7), ("batch_size", .vint 8),
          ("temperature", .vfloat (1/10))]) ∧
    (∀ config : Config, get_format_config config =
      match lookupKey config "format" with
      | some v => v
      | none => .vdict [("default", .vstr "jsonl"),
          ("include_metadata", .vbool true),
          ("pretty_json", .vbool true)]) := by
  refine ⟨fun config => ?_, fun config => ?_, fun config => ?_,
    fun config => ?_, fun config => ?_⟩
  · cases h : lookupKey config "vllm" <;> simp [get_vllm_config, h]
  · cases h : lookupKey config "api-endpoint" <;> simp [get_openai_config, h]
  · cases h : lookupKey config "generation" <;> simp [get_generation_config, h]
  · cases h : lookupKey config "curate" <;> simp [get_curate_config, h]
  · cases h : lookupKey config "format" <;> simp [get_format_config, h]

/-- C6: on a document whose `prompts` section is a mapping (absent meaning
`{}`), `get_prompt` fails with `NotFoundError` exactly when the named prompt
is absent, and otherwise returns the stored prompt value. -/
theorem get_prompt_spec (config : Config) (prompts : List (String × Value))
    (hp : (lookupKey config "prompts").getD (.vdict []) = .vdict prompts)
    (prompt_name : String) :
    (get_prompt config prompt_name = .error .notFound ↔
      lookupKey prompts prompt_name = none) ∧
    (∀ v, lookupKey prompts prompt_name = some v →
      get_prompt config prompt_name = .ok v) := by
  constructor
  · cases h : lookupKey prompts prompt_name <;> simp [get_prompt, hp, h]
  · intro v hv
    simp [get_prompt, hp, hv]

/-- Witness for C6: `get_prompt('missing')` on a document without prompts
fails with `NotFoundError`, and a stored prompt is returned. -/
theorem get_prompt_spec_witness :
    get_prompt [] "missing" = .error .notFound ∧
    get_prompt [("prompts", .vdict [("qa", .vstr "Generate QA")])] "qa" =
      .ok (.vstr "Generate QA") := by
  constructor
  · exact (get_prompt_spec [] [] (by rfl) "missing").1.mpr rfl
  · exact (get_prompt_spec [("prompts", .vdict [("qa", .vstr "Generate QA")])]
      [("qa", .vstr "Generate QA")] (by rfl) "qa").2 (.vstr "Generate QA") rfl

/-- C7: the consistency check at line 87 of `get_llm_provider` is dead code:
its condition compares the already-read provider against itself and is false
on every document, so the warning branch can never run. -/
theorem llm_warn_cond_dead (config : Config) : llmWarnCond config = false := by
  unfold llmWarnCond
  cases hc : lookupKey config "llm" with
  | none => simp
  | some v =>
    cases v <;> simp [hc]
    rename_i d
    cases hp : lookupKey d "provider" with
    | none => simp
    | some p =>
      simp only [Option.isSome_some, Option.getD_some, Bool.true_and]
      cases hb : isApiEndpoint p <;> simp

/-- C8: `load_config` tries the package-relative path, then the legacy
package-root path, and falls back to the package-relative default (equal to
the package path) when neither exists; for every resolved path, explicit or
discovered, it fails with `NotFoundError` exactly when that path does not
exist and otherwise returns the parsed YAML document of that path. -/
theorem load_config_spec :
    (∀ (fs : FileSystem) (pkg orig p : String),
      load_config fs pkg orig (some p) =
        if fs.pathExists p then .ok (fs.parsedDocAt p)
        else .error .notFound) ∧
    (∀ (fs : FileSystem) (pkg orig : String), fs.pathExists pkg = true →
      load_config fs pkg orig none = .ok (fs.parsedDocAt pkg)) ∧
    (∀ (fs : FileSystem) (pkg orig : String), fs.pathExists pkg = false →
      fs.pathExists orig = true →
      load_config fs pkg orig none = .ok (fs.parsedDocAt orig)) ∧
    (∀ (fs : FileSystem) (pkg orig : String), fs.pathExists pkg = false →
      fs.pathExists orig = false →
      load_config fs pkg orig none = .error .notFound) := by
  refine ⟨fun fs pkg orig p => rfl, fun fs pkg orig h1 => ?_,
    fun fs pkg orig h1 h2 => ?_, fun fs pkg orig h1 h2 => ?_⟩
  · simp [load_config, h1]
  · simp [load_config, h1, h2]
  · simp [load_config, h1, h2]

/-- Witness for C8: the three discovery outcomes and an explicit path, on
concrete file systems. -/
theorem load_config_spec_witness :
    load_config ⟨fun q => q == "pkg", fun _ => []⟩ "pkg" "orig" none =
      .ok [] ∧
    load_config ⟨fun q => q == "orig", fun _ => []⟩ "pkg" "orig" none =
      .ok [] ∧
    load_config ⟨fun _ => false, fun _ => []⟩ "pkg" "orig" none =
      .error .notFound ∧
    load_config ⟨fun q => q == "x", fun _ => [("k", .vnull)]⟩ "pkg" "orig"
      (some "x") = .ok [("k", .vnull)] := by
  refine ⟨?_, ?_, ?_, ?_⟩
  · exact load_config_spec.2.1 ⟨fun q => q == "pkg", fun _ => []⟩
      "pkg" "orig" (by rfl)
  · exact load_config_spec.2.2.1 ⟨fun q => q == "orig", fun _ => []⟩
      "pkg" "orig" (by rfl) (by rfl)
  · exact load_config_spec.2.2.2 ⟨fun _ => false, fun _ => []⟩
      "pkg" "orig" (by rfl) (by rfl)
  · exact (load_config_spec.1 ⟨fun q => q == "x", fun _ => [("k", .vnull)]⟩
      "pkg" "orig" "x").trans (by rfl)

theorem get_path_config_input_ne_invalid (config : Config)
    (file_type : Option String) :
    get_path_config config "input" file_type ≠ .error .invalidArgument := by
  unfold get_path_config
  rw [if_pos rfl]
  cases h1 : (lookupKey config "paths").getD (.vdict []) <;> simp
  rename_i pd
  cases h2 : (lookupKey pd "input").getD (.vstr "data/input") <;> simp
  rename_i d
  cases file_type with
  | none => simp
  | some ft =>
    by_cases he : ft = "" <;> simp [he]
    cases h3 : lookupKey d ft <;> simp

theorem get_path_config_output_ne_invalid (config : Config)
    (file_type : Option String) :
    get_path_config config "output" file_type ≠ .error .invalidArgument := by
  unfold get_path_config
  rw [if_neg (by decide), if_pos rfl]
  cases h1 : (lookupKey config "paths").getD (.vdict []) <;> simp
  rename_i pd
  cases h2 : (lookupKey pd "output").getD (.vdict []) <;> simp
  rename_i d
  cases file_type with
  | none => simp
  | some ft =>
    by_cases he : ft = "" <;> simp [he]
    cases h3 : lookupKey d ft <;> simp

/-- C9: `get_path_config` fails with `InvalidArgument` exactly when the
requested `path_type` is neither `input` nor `output`, on every document and
`file_type`. -/
theorem get_path_config_invalid_iff (config : Config) (path_type : String)
    (file_type : Option String) :
    get_path_config config path_type file_type = .error .invalidArgument ↔
      path_type ≠ "input" ∧ path_type ≠ "output" := by
  by_cases h1 : path_type = "input"
  · subst h1
    simp [get_path_config_input_ne_invalid config file_type]
  · by_cases h2 : path_type = "output"
    · subst h2
      simp [get_path_config_output_ne_invalid config file_type]
    · have h : get_path_config config path_type file_type =
          .error .invalidArgument := by
        simp [get_path_config, h1, h2]
      simp [h, h1, h2]

/-- C10: `get_llm_provider` returns the value stored at `llm.provider` when
the `llm` section (a mapping) and its `provider` key are present, and the
literal `'vllm'` when the `llm` section or its `provider` key is absent. -/
theorem get_llm_provider_spec (config : Config) :
    (∀ d v, lookupKey config "llm" = some (.vdict d) →
      lookupKey d "provider" = some v →
      get_llm_provider config = .ok v) ∧
    (lookupKey config "llm" = none →
      get_llm_provider config = .ok (.vstr "vllm")) ∧
    (∀ d, lookupKey config "llm" = some (.vdict d) →
      lookupKey d "provider" = none →
      get_llm_provider config = .ok (.vstr "vllm")) := by
  refine ⟨?_, ?_, ?_⟩
  · intro d v hd hv
    simp [get_llm_provider, hd, hv]
  · intro h
    simp [get_llm_provider, h, lookupKey]
  · intro d hd hv
    simp [get_llm_provider, hd, hv]

/-- Witness for C10: a stored provider is returned, and a document lacking
`llm` yields `'vllm'`. -/
theorem get_llm_provider_spec_witness :
    get_llm_provider [("llm", .vdict [("provider", .vstr "api-endpoint")])] =
      .ok (.vstr "api-endpoint") ∧
    get_llm_provider [] = .ok (.vstr "vllm") := by
  constructor
  · exact (get_llm_provider_spec
      [("llm", .vdict [("provider", .vstr "api-endpoint")])]).1
      [("provider", .vstr "api-endpoint")] (.vstr "api-endpoint") rfl rfl
  · exact (get_llm_provider_spec []).2.1 rfl

/-- A Python immutable scalar in the heap model of `merge_configs`. -/
inductive PrimVal : Type where
  | pnull : PrimVal
  | pbool : Bool → PrimVal
  | pint : Int → PrimVal
  | pfloat : ℚ → PrimVal
  | pstr : String → PrimVal
  deriving DecidableEq

/-- A runtime value held in a dict entry: an immutable scalar, or a reference
to a dict object living in the heap.  `merge_configs` distinguishes only
`isinstance(value, dict)`; sequences are never entered or mutated by it and
are treated like scalars. -/
inductive HVal : Type where
  | prim : PrimVal → HVal
  | ref : Nat → HVal
  deriving DecidableEq

/-- The entry list of one dict object. -/
abbrev HCell := List (String × HVal)

/-- The heap: dict objects addressed by their index; allocation appends. -/
abbrev Heap := List HCell

def primToValue : PrimVal → Value
  | .pnull => .vnull
  | .pbool b => .vbool b
  | .pint n => .vint n
  | .pfloat q => .vfloat q
  | .pstr s => .vstr s

/-- The loop of `merge_configs` (lines 147-151) in the heap model,
parameterised by the recursive merge `f`: iterate over the override dict's
entries; for an entry whose value is a dict reference, when the result dict
`r` currently maps the key to a dict reference, replace it by a reference to
the (freshly allocated) recursive merge, otherwise store the override value;
scalar entries are stored directly.  Only the result object `r` is ever
written. -/
def mergeLoopF (f : Heap → Nat → Nat → Option (Nat × Heap)) :
    Heap → Nat → List (String × HVal) → Option Heap
  | h, _, [] => some h
  | h, r, (key, value) :: rest =>
    match value with
    | .ref va =>
      (match lookupKey ((h[r]?).getD []) key with
       | some (.ref ra) =>
         (match f h ra va with
          | some (na, h2) =>
            mergeLoopF f (h2.set r (setKey ((h2[r]?).getD []) key (.ref na)))
              r rest
          | none => none)
       | _ => mergeLoopF f (h.set r (setKey ((h[r]?).getD []) key value)) r rest)
    | .prim _ =>
      mergeLoopF f (h.set r (setKey ((h[r]?).getD []) key value)) r rest

/-- `merge_configs` (lines 144-152) in the heap model: `result =
base_config.copy()` allocates a fresh dict whose entries are those of the
dict at `b` (a shallow copy: references are shared), the loop runs over the
entries of the dict at `o`, and the address of the result is returned.  The
fuel bounds recursion depth (Python recursion is unbounded and diverges on
cyclic documents); `none` means fuel ran out. -/
def mergeH : Nat → Heap → Nat → Nat → Option (Nat × Heap)
  | 0, _, _, _ => none
  | fuel + 1, h, b, o =>
    (match mergeLoopF (mergeH fuel) (h ++ [(h[b]?).getD []]) h.length
        ((h[o]?).getD []) with
     | some h2 => some (h.length, h2)
     | none => none)

/-- Decode the entries of one dict object into document form, given a decoder
for values. -/
def decodeEntries (f : HVal → Option Value) : HCell →
    Option (List (String × Value))
  | [] => some []
  | (k, v) :: rest =>
    match f v, decodeEntries f rest with
    | some dv, some drest => some ((k, dv) :: drest)
    | _, _ => none

/-- Decode a runtime value into its structural document content, reading dict
references from the heap; the fuel bounds depth (cyclic heaps decode to
`none`). -/
def decodeV : Nat → Heap → HVal → Option Value
  | _, _, .prim p => some (primToValue p)
  | 0, _, .ref _ => none
  | fuel + 1, h, .ref a =>
    match h[a]? with
    | some cell => (decodeEntries (decodeV fuel h) cell).map Value.vdict
    | none => none

/-- A runtime value's references stay below `n`. -/
def HVal.refBound : HVal → Nat → Bool
  | .prim _, _ => true
  | .ref a, n => decide (a < n)

/-- Heap well-formedness: no dangling references (as in a running Python
program, where every reference points at a live object). -/
abbrev Heap.WF (h : Heap) : Prop :=
  ∀ cell ∈ h, ∀ e ∈ cell, HVal.refBound e.2 h.length = true

theorem mem_of_lookup_getElem {l : List HCell} {n : Nat} {c : HCell}
    (h : l[n]? = some c) : c ∈ l :=
  List.get?_mem (by rw [List.get?_eq_getElem?]; exact h)

theorem mergeLoopF_frame (f : Heap → Nat → Nat → Option (Nat × Heap))
    (hf : ∀ (h : Heap) (b o r₂ : Nat) (h' : Heap), f h b o = some (r₂, h') →
      h.length ≤ h'.length ∧ ∀ a, a < h.length → h'[a]? = h[a]?) :
    ∀ (entries : List (String × HVal)) (h : Heap) (r : Nat) (h' : Heap),
      mergeLoopF f h r entries = some h' →
      h.length ≤ h'.length ∧
        ∀ a, a < h.length → a ≠ r → h'[a]? = h[a]? := by
  intro entries
  induction entries with
  | nil =>
    intro h r h' hm
    simp only [mergeLoopF, Option.some.injEq] at hm
    subst hm
    exact ⟨le_refl _, fun a _ _ => rfl⟩
  | cons e rest ih =>
    obtain ⟨key, value⟩ := e
    intro h r h' hm
    have hstep : ∀ (hh : Heap) (c : HCell),
        mergeLoopF f (hh.set r c) r rest = some h' →
        hh.length ≤ h'.length ∧
          ∀ a, a < hh.length → a ≠ r → h'[a]? = hh[a]? := by
      intro hh c hmm
      have step := ih (hh.set r c) r h' hmm
      rw [List.length_set] at step
      refine ⟨step.1, fun a ha hne => ?_⟩
      rw [step.2 a ha hne, List.getElem?_set_ne (fun hh' => hne hh'.symm)]
    cases value with
    | prim p =>
      simp only [mergeLoopF] at hm
      exact hstep _ _ hm
    | ref va =>
      simp only [mergeLoopF] at hm
      cases hl : lookupKey ((h[r]?).getD []) key with
      | none =>
        simp only [hl] at hm
        exact hstep _ _ hm
      | some hv =>
        cases hv with
        | prim p2 =>
          simp only [hl] at hm
          exact hstep _ _ hm
        | ref ra =>
          simp only [hl] at hm
          cases hfm : f h ra va with
          | none =>
            simp only [hfm] at hm
            exact Option.noConfusion hm
          | some pr =>
            obtain ⟨na, h2⟩ := pr
            simp only [hfm] at hm
            have hf2 := hf h ra va na h2 hfm
            have step := hstep h2 (setKey ((h2[r]?).getD []) key (.ref na)) hm
            refine ⟨le_trans hf2.1 step.1, fun a ha hne => ?_⟩
            rw [step.2 a (lt_of_lt_of_le ha hf2.1) hne, hf2.2 a ha]

theorem mergeH_frame : ∀ (fuel : Nat) (h : Heap) (b o r : Nat) (h' : Heap),
    mergeH fuel h b o = some (r, h') →
    h.length ≤ h'.length ∧ ∀ a, a < h.length → h'[a]? = h[a]? := by
  intro fuel
  induction fuel with
  | zero => intro h b o r h' hm; exact absurd hm (by simp [mergeH])
  | succ n ih =>
    intro h b o r h' hm
    simp only [mergeH] at hm
    cases hl : mergeLoopF (mergeH n) (h ++ [(h[b]?).getD []]) h.length
        ((h[o]?).getD []) with
    | none => rw [hl] at hm; exact absurd hm (by simp)
    | some h2 =>
      rw [hl] at hm
      simp only [Option.some.injEq, Prod.mk.injEq] at hm
      obtain ⟨hr, hh⟩ := hm
      subst hh
      have lf := mergeLoopF_frame (mergeH n) ih ((h[o]?).getD [])
        (h ++ [(h[b]?).getD []]) h.length h2 hl
      have hlen : (h ++ [(h[b]?).getD []]).length = h.length + 1 := by simp
      constructor
      · calc h.length ≤ h.length + 1 := Nat.le_succ _
          _ = (h ++ [(h[b]?).getD []]).length := hlen.symm
          _ ≤ h2.length := lf.1
      · intro a ha
        have := lf.2 a (by rw [hlen]; omega) (Nat.ne_of_lt ha)
        rw [this, List.getElem?_append_left ha]

theorem decodeEntries_congr (f g : HVal → Option Value) (cell : HCell)
    (hfg : ∀ e ∈ cell, f e.2 = g e.2) :
    decodeEntries f cell = decodeEntries g cell := by
  induction cell with
  | nil => rfl
  | cons e rest ih =>
    obtain ⟨k, v⟩ := e
    rw [decodeEntries, decodeEntries, hfg (k, v) (by simp),
      ih (fun e' he' => hfg e' (by simp [he']))]

theorem decodeV_frame (h h' : Heap) (hwf : Heap.WF h)
    (hpres : ∀ a, a < h.length → h'[a]? = h[a]?) :
    ∀ (fuel : Nat) (v : HVal), HVal.refBound v h.length = true →
      decodeV fuel h' v = decodeV fuel h v := by
  intro fuel
  induction fuel with
  | zero => intro v _; cases v <;> rfl
  | succ n ih =>
    intro v hv
    cases v with
    | prim p => rfl
    | ref a =>
      have ha : a < h.length := by simpa [HVal.refBound] using hv
      rw [decodeV, decodeV, hpres a ha]
      cases hc : h[a]? with
      | none => rfl
      | some cell =>
        show (decodeEntries (decodeV n h') cell).map Value.vdict =
          (decodeEntries (decodeV n h) cell).map Value.vdict
        rw [decodeEntries_congr (decodeV n h') (decodeV n h) cell
          (fun e he => ih e.2 (hwf cell (mem_of_lookup_getElem hc) e he))]

/-- C2: `merge_configs` does not mutate its inputs: on a well-formed heap,
every dict object that existed before the call — in particular the `base` and
`override` documents and all their nested mappings — holds exactly the same
entries afterwards, and decodes to the same document tree.  (`merge_configs`
only writes to the result dicts it freshly allocates via `.copy()`.) -/
theorem merge_configs_nonmutating (fuel : Nat) (h : Heap) (b o r : Nat)
    (h' : Heap) (hwf : Heap.WF h) (hm : mergeH fuel h b o = some (r, h')) :
    (∀ a, a < h.length → h'[a]? = h[a]?) ∧
    (∀ df a, a < h.length →
      decodeV df h' (.ref a) = decodeV df h (.ref a)) := by
  have frame := mergeH_frame fuel h b o r h' hm
  refine ⟨frame.2, fun df a ha => ?_⟩
  exact decodeV_frame h h' hwf frame.2 df (.ref a)
    (by simp [HVal.refBound, ha])

/-- The heap of the spec's example: address 1 holds `base =
{'a': {'x':1,'y':2}}` (its nested dict at address 0), address 3 holds
`override = {'a': {'y':9,'z':3}}` (nested dict at address 2). -/
def exampleHeap : Heap :=
  [[("x", .prim (.pint 1)), ("y", .prim (.pint 2))],
   [("a", .ref 0)],
   [("y", .prim (.pint 9)), ("z", .prim (.pint 3))],
   [("a", .ref 2)]]

/-- The heap after `merge_configs(base, override)` on `exampleHeap`: two new
dicts are allocated (the result at 4 and the merged nested dict at 5); the
four original objects are untouched. -/
def exampleHeapMerged : Heap :=
  [[("x", .prim (.pint 1)), ("y", .prim (.pint 2))],
   [("a", .ref 0)],
   [("y", .prim (.pint 9)), ("z", .prim (.pint 3))],
   [("a", .ref 2)],
   [("a", .ref 5)],
   [("x", .prim (.pint 1)), ("y", .prim (.pint 9)), ("z", .prim (.pint 3))]]

/-- Witness for C2 at the spec's example: the call returns the merged
document at a fresh address, the base document's nested `'a'` dict object
(address 0) still holds `{'x':1,'y':2}`, and the base document at address 1
still decodes to `{'a': {'x':1,'y':2}}`. -/
theorem merge_configs_nonmutating_witness :
    mergeH 10 exampleHeap 1 3 = some (4, exampleHeapMerged) ∧
    exampleHeapMerged[0]? =
      some [("x", .prim (.pint 1)), ("y", .prim (.pint 2))] ∧
    decodeV 3 exampleHeapMerged (.ref 1) = decodeV 3 exampleHeap (.ref 1) := by
  refine ⟨by decide, ?_, ?_⟩
  · exact ((merge_configs_nonmutating 10 exampleHeap 1 3 4 exampleHeapMerged
      (by decide) (by decide)).1 0 (by decide)).trans (by decide)
  · exact (merge_configs_nonmutating 10 exampleHeap 1 3 4 exampleHeapMerged
      (by decide) (by decide)).2 3 1 (by decide)
